import Mathlib

/-!
Verification of the sources-mentions-analysis pipeline
(`src/fetch_correlation_data.py`).

The Python values flowing through the pipeline are JSON-shaped; we embed
them as the inductive `JVal`.  JSON numbers are modelled as exact
rationals.  `json.loads` is Python standard-library code external to the
repository, so it is abstracted as a decoder `String → Option JVal`
(`none` models a raised `json.JSONDecodeError`); every theorem quantifies
over the decoder.  Exceptions that the source code catches are modelled by
`Option`; a code path on which the source would raise an uncaught
exception is modelled as `none` of the enclosing function.
-/

namespace SMA

/-- A JSON/Python value as produced by `json.loads` and passed through the
pipeline.  Objects are association lists with (by Python-dict semantics)
unique keys; numbers are exact rationals. -/
inductive JVal : Type where
  | null
  | bool (b : Bool)
  | num (q : Rat)
  | str (s : String)
  | arr (elems : List JVal)
  | obj (fields : List (String × JVal))
deriving Repr

/-- Python truthiness (`bool(x)` / `if x:`) on a JSON value:
`None`, `False`, `0`, `""`, `[]`, `{}` are falsy, everything else truthy. -/
def JVal.truthy : JVal → Bool
  | .null => false
  | .bool b => b
  | .num q => q != 0
  | .str s => s != ""
  | .arr elems => !elems.isEmpty
  | .obj fields => !fields.isEmpty

/-- `x.isStr` holds when the value is a string (used to state the
type-correctness part of the Citation Normalizer contract). -/
def JVal.isStr : JVal → Bool
  | .str _ => true
  | _ => false

/-- Key lookup in a Python dict (association list with unique keys). -/
def jlookup (fields : List (String × JVal)) (key : String) : Option JVal :=
  match fields with
  | [] => none
  | (k, v) :: rest => if k = key then some v else jlookup rest key

/-- Python `d.get(key, default)`. -/
def dictGet (fields : List (String × JVal)) (key : String) (dflt : JVal) : JVal :=
  (jlookup fields key).getD dflt

/-- `parse_resources` (src/fetch_correlation_data.py lines 75-104).
`dec` abstracts `json.loads`; `dec s = none` models a decode failure,
which the source catches and turns into `[]`.  Mirrors the source
branch for branch:
falsy payload → `[]`; string → decode (failure → `[]`); mapping with a
`resources` key → that value if it is a list else `[]`; mapping without
the key → the mapping as a one-element list; list → itself; other → `[]`. -/
def parse_resources (dec : String → Option JVal) (resources_data : JVal) :
    List JVal :=
  if resources_data.truthy = false then []
  else
    let parsed? : Option JVal :=
      match resources_data with
      | .str s => dec s
      | v => some v
    match parsed? with
    | none => []
    | some (.obj fields) =>
        match jlookup fields "resources" with
        | some (.arr elems) => elems
        | some _ => []
        | none => [.obj fields]
    | some (.arr elems) => elems
    | some _ => []

/-- One entry of `sources_details`: the dict
`{'url': ..., 'domain': ..., 'is_customer_mentioned': ...}` built in
`analyze_data` (lines 205-209).  `url` and `domain` carry the raw
`.get` results (any JSON value); `is_customer_mentioned` is `bool(...)`,
hence a genuine boolean. -/
structure SourceDetail where
  url : JVal
  domain : JVal
  is_customer_mentioned : Bool
deriving Repr

/-- The `sources_details` list built by the loop in `analyze_data`
(lines 197-209): one entry per element of the parsed resources that is a
mapping; non-mapping elements are skipped. -/
def sources_details_of (resources : List JVal) : List SourceDetail :=
  match resources with
  | [] => []
  | .obj fields :: rest =>
      { url := dictGet fields "url" (.str "")
        domain := dictGet fields "Domain" (.str "")
        is_customer_mentioned :=
          (dictGet fields "is_customer_mentioned" (.bool false)).truthy } ::
      sources_details_of rest
  | _ :: rest => sources_details_of rest

/-- The `sources_with_brand` counter of the same loop (lines 197-203):
counts the mapping elements whose `is_customer_mentioned` field is
truthy. -/
def sources_with_brand_of (resources : List JVal) : Nat :=
  match resources with
  | [] => 0
  | .obj fields :: rest =>
      (if (dictGet fields "is_customer_mentioned" (.bool false)).truthy
       then 1 else 0) + sources_with_brand_of rest
  | _ :: rest => sources_with_brand_of rest

/-- The analysis record built per raw record by `analyze_data`
(lines 157-220).  Fields mirror the Python dict `record`;
`brand_mention_percentage` is modelled as an exact rational. -/
structure EnrichedRecord where
  id : JVal
  query_id : JVal
  query_group_id : JVal
  execution_id : JVal
  create_date : JVal
  product_in_results : JVal
  brand_in_response : Bool
  resources_raw : JVal
  resources_log : JVal
  product_result_raw_log : JVal
  competitors_log : JVal
  query_results_log : JVal
  bd_response_log : JVal
  run_log : JVal
  competitors_raw : JVal
  resources_parsed : List JVal
  total_sources : Nat
  sources_with_brand : Nat
  sources_details : List SourceDetail
  brand_mention_percentage : Rat
deriving Repr

/-- The body of the `analyze_data` loop for one raw record `qe`
(lines 161-220).  `qe.get(k)` defaults to `None`; `product_in_results`
defaults to `0`; `brand_in_response = bool(...)` is Python truthiness. -/
def enrichRecord (dec : String → Option JVal)
    (qe : List (String × JVal)) : EnrichedRecord :=
  let resources := parse_resources dec (dictGet qe "resources" .null)
  let sources_with_brand := sources_with_brand_of resources
  { id := dictGet qe "id" .null
    query_id := dictGet qe "query_id" .null
    query_group_id := dictGet qe "query_group_id" .null
    execution_id := dictGet qe "execution_id" .null
    create_date := dictGet qe "create_date" .null
    product_in_results := dictGet qe "product_in_results" (.num 0)
    brand_in_response := (dictGet qe "product_in_results" (.num 0)).truthy
    resources_raw := dictGet qe "resources" .null
    resources_log := dictGet qe "resources_log" .null
    product_result_raw_log := dictGet qe "product_result_raw_log" .null
    competitors_log := dictGet qe "competitors_log" .null
    query_results_log := dictGet qe "query_results_log" .null
    bd_response_log := dictGet qe "bd_response_log" .null
    run_log := dictGet qe "run_log" .null
    competitors_raw := dictGet qe "competitors" .null
    resources_parsed := resources
    total_sources := resources.length
    sources_with_brand := sources_with_brand
    sources_details := sources_details_of resources
    brand_mention_percentage :=
      if resources.length > 0 then
        ((sources_with_brand : Rat) / (resources.length : Rat)) * 100
      else 0 }

/-- `analyze_data` (lines 147-223): enrich every raw record, in order. -/
def analyze_data (dec : String → Option JVal)
    (queries_execution_data : List (List (String × JVal))) :
    List EnrichedRecord :=
  queries_execution_data.map (enrichRecord dec)

/-- The spec's Citation Normalizer: `parse_resources` composed with the
detail-extraction loop of `analyze_data` (lines 188, 197-209), i.e. the
canonical citation sequence derived from one payload. -/
def normalizeCitations (dec : String → Option JVal) (payload : JVal) :
    List SourceDetail :=
  sources_details_of (parse_resources dec payload)

/-- The summary dict built by `generate_summary_stats` (lines 226-264);
the six averages are modelled as exact rationals. -/
structure SummaryStats where
  total_records : Nat
  records_with_brand_in_response : Nat
  records_without_brand_in_response : Nat
  avg_sources_when_mentioned : Rat
  avg_sources_when_not_mentioned : Rat
  avg_brand_sources_when_mentioned : Rat
  avg_brand_sources_when_not_mentioned : Rat
  avg_brand_pct_when_mentioned : Rat
  avg_brand_pct_when_not_mentioned : Rat
deriving Repr, DecidableEq

/-- `generate_summary_stats` (lines 226-264).  `with_response_mention` is
the generator count `sum(1 for r in ... if r['brand_in_response'])`; the
two groups are the filters of lines 236-237; each average is 0 when its
group is empty (the dict initialisers of lines 246-251), else the group
sum divided by the group size (lines 254-262). -/
def generate_summary_stats (analyzed_data : List EnrichedRecord) :
    SummaryStats :=
  let total := analyzed_data.length
  let with_response_mention :=
    analyzed_data.countP (fun r => r.brand_in_response)
  let mentioned_group := analyzed_data.filter (fun r => r.brand_in_response)
  let not_mentioned_group :=
    analyzed_data.filter (fun r => !r.brand_in_response)
  { total_records := total
    records_with_brand_in_response := with_response_mention
    records_without_brand_in_response := total - with_response_mention
    avg_sources_when_mentioned :=
      if mentioned_group.isEmpty then 0 else
        (mentioned_group.map (fun r => (r.total_sources : Rat))).sum /
          (mentioned_group.length : Rat)
    avg_brand_sources_when_mentioned :=
      if mentioned_group.isEmpty then 0 else
        (mentioned_group.map (fun r => (r.sources_with_brand : Rat))).sum /
          (mentioned_group.length : Rat)
    avg_brand_pct_when_mentioned :=
      if mentioned_group.isEmpty then 0 else
        (mentioned_group.map (fun r => r.brand_mention_percentage)).sum /
          (mentioned_group.length : Rat)
    avg_sources_when_not_mentioned :=
      if not_mentioned_group.isEmpty then 0 else
        (not_mentioned_group.map (fun r => (r.total_sources : Rat))).sum /
          (not_mentioned_group.length : Rat)
    avg_brand_sources_when_not_mentioned :=
      if not_mentioned_group.isEmpty then 0 else
        (not_mentioned_group.map (fun r => (r.sources_with_brand : Rat))).sum /
          (not_mentioned_group.length : Rat)
    avg_brand_pct_when_not_mentioned :=
      if not_mentioned_group.isEmpty then 0 else
        (not_mentioned_group.map (fun r => r.brand_mention_percentage)).sum /
          (not_mentioned_group.length : Rat) }

/-- Outcome of the single HTTP round trip attempted by `api_call`
(lines 58-72), as seen by the caller: a 2xx response whose body decoded
to `body`; a 2xx response whose body `json.loads` cannot decode; an
`HTTPError`; or any other exception (transport error, timeout, ...). -/
inductive HttpOutcome : Type where
  | success (body : JVal)
  | successUndecodable
  | httpError (code : Nat) (reason : String)
  | otherError (msg : String)
deriving Repr

/-- `api_call` (lines 41-72).  An empty `API_KEY` fails fast before the
request (line 45).  On a decoded 2xx body the payload is
`result.get('data', result)` (line 61); when the body is not a mapping
that `.get` raises, is caught by the blanket handler, and yields `None`.
Every failure path returns `None` after printing a console message. -/
def api_call (apiKey : String) (outcome : HttpOutcome) : Option JVal :=
  if apiKey = "" then none
  else
    match outcome with
    | .success body =>
        match body with
        | .obj fields => some (dictGet fields "data" (.obj fields))
        | _ => none
    | .successUndecodable => none
    | .httpError _ _ => none
    | .otherError _ => none

/-- The per-record keep test of `fetch_queries_execution_data`
(lines 133-138): the raw `resources` field is truthy and parsing it
yields at least one element. -/
def keepRecord (dec : String → Option JVal)
    (record : List (String × JVal)) : Bool :=
  let resources_raw := dictGet record "resources" .null
  resources_raw.truthy &&
    decide ((parse_resources dec resources_raw).length > 0)

/-- The record iteration of `fetch_queries_execution_data` requires every
element of the fetched payload to be a mapping; on a non-mapping element
the source's `record.get` raises an uncaught `AttributeError`, modelled
as `none`. -/
def asObjRecords (records : List JVal) :
    Option (List (List (String × JVal))) :=
  records.mapM (fun r =>
    match r with
    | .obj fields => some fields
    | _ => none)

/-- `fetch_queries_execution_data` (lines 107-144), from the point the
HTTP outcome is known.  `none` of the result models an uncaught
exception: iterating a truthy non-list payload, or calling `.get` on a
non-mapping record, raises in the source.  A failed or falsy `api_call`
result yields `[]` (lines 142-144), indistinguishable from an empty
filtered result. -/
def fetch_queries_execution_data (dec : String → Option JVal)
    (apiKey : String) (outcome : HttpOutcome) :
    Option (List (List (String × JVal))) :=
  match api_call apiKey outcome with
  | none => some []
  | some data =>
      if data.truthy then
        match data with
        | .arr records =>
            (asObjRecords records).map
              (fun objRecords => objRecords.filter (keepRecord dec))
        | _ => none
      else some []

/-- The three output artifacts of one successful run. -/
inductive Artifact : Type where
  | fullData
  | summaryFile
  | csvFile
deriving Repr, DecidableEq

/-- `save_results` (lines 294-332) writes exactly these three files, in
this order, and returns their paths. -/
def save_results_artifacts : List Artifact :=
  [.fullData, .summaryFile, .csvFile]

/-- The artifact-writing behaviour of `main` (lines 335-390): when the
fetched record list is falsy (empty) the function returns before any
output is produced (lines 346-348); otherwise it runs the analysis and
writes all three artifacts via `save_results` (line 381).  `none` models
an uncaught exception inside the fetch stage. -/
def main_artifacts (dec : String → Option JVal) (apiKey : String)
    (outcome : HttpOutcome) : Option (List Artifact) :=
  match fetch_queries_execution_data dec apiKey outcome with
  | none => none
  | some records =>
      if records.isEmpty then some [] else some save_results_artifacts

/-! ## Helper lemmas -/

/-- The detail entry extracted from one mapping element. -/
def detailOf (fields : List (String × JVal)) : SourceDetail :=
  { url := dictGet fields "url" (.str "")
    domain := dictGet fields "Domain" (.str "")
    is_customer_mentioned :=
      (dictGet fields "is_customer_mentioned" (.bool false)).truthy }

theorem sources_details_of_cons (hd : JVal) (tl : List JVal) :
    sources_details_of (hd :: tl) =
      (match hd with
       | .obj fields => [detailOf fields]
       | _ => []) ++ sources_details_of tl := by
  cases hd <;> rfl

theorem sources_with_brand_of_cons (hd : JVal) (tl : List JVal) :
    sources_with_brand_of (hd :: tl) =
      (match hd with
       | .obj fields =>
           if (dictGet fields "is_customer_mentioned" (.bool false)).truthy
           then 1 else 0
       | _ => 0) + sources_with_brand_of tl := by
  cases hd <;> simp [sources_with_brand_of]

theorem sources_details_of_length_le (rs : List JVal) :
    (sources_details_of rs).length ≤ rs.length := by
  induction rs with
  | nil => simp [sources_details_of]
  | cons hd tl ih =>
      cases hd <;> simp [sources_details_of] <;> omega

theorem sources_with_brand_of_le (rs : List JVal) :
    sources_with_brand_of rs ≤ rs.length := by
  induction rs with
  | nil => simp [sources_with_brand_of]
  | cons hd tl ih =>
      cases hd <;> simp [sources_with_brand_of] <;> try omega
      split <;> omega

theorem mem_sources_details_of {d : SourceDetail} {rs : List JVal}
    (h : d ∈ sources_details_of rs) :
    ∃ fields, JVal.obj fields ∈ rs ∧
      d.url = dictGet fields "url" (.str "") ∧
      d.domain = dictGet fields "Domain" (.str "") ∧
      d.is_customer_mentioned =
        (dictGet fields "is_customer_mentioned" (.bool false)).truthy := by
  induction rs with
  | nil => simp [sources_details_of] at h
  | cons hd tl ih =>
      rw [sources_details_of_cons] at h
      cases hd with
      | obj fields =>
          simp only [List.cons_append, List.nil_append] at h
          rcases List.mem_cons.mp h with h1 | h2
          · exact ⟨fields, List.mem_cons_self _ _, by simp [h1, detailOf]⟩
          · obtain ⟨f, hf, hu⟩ := ih h2
            exact ⟨f, List.mem_cons_of_mem _ hf, hu⟩
      | null =>
          simp only [List.nil_append] at h
          obtain ⟨f, hf, hu⟩ := ih h
          exact ⟨f, List.mem_cons_of_mem _ hf, hu⟩
      | bool b =>
          simp only [List.nil_append] at h
          obtain ⟨f, hf, hu⟩ := ih h
          exact ⟨f, List.mem_cons_of_mem _ hf, hu⟩
      | num q =>
          simp only [List.nil_append] at h
          obtain ⟨f, hf, hu⟩ := ih h
          exact ⟨f, List.mem_cons_of_mem _ hf, hu⟩
      | str s =>
          simp only [List.nil_append] at h
          obtain ⟨f, hf, hu⟩ := ih h
          exact ⟨f, List.mem_cons_of_mem _ hf, hu⟩
      | arr elems =>
          simp only [List.nil_append] at h
          obtain ⟨f, hf, hu⟩ := ih h
          exact ⟨f, List.mem_cons_of_mem _ hf, hu⟩

theorem length_filter_add_length_filter_not {α : Type} (p : α → Bool)
    (l : List α) :
    (l.filter p).length + (l.filter (fun x => !p x)).length = l.length := by
  induction l with
  | nil => simp
  | cons hd tl ih =>
      by_cases h : p hd = true <;> simp [List.filter_cons, h] <;> omega

theorem enrichRecord_total_sources (dec : String → Option JVal)
    (qe : List (String × JVal)) :
    (enrichRecord dec qe).total_sources =
      (parse_resources dec (dictGet qe "resources" .null)).length := rfl

theorem enrichRecord_sources_with_brand (dec : String → Option JVal)
    (qe : List (String × JVal)) :
    (enrichRecord dec qe).sources_with_brand =
      sources_with_brand_of (parse_resources dec (dictGet qe "resources" .null)) :=
  rfl

theorem enrichRecord_sources_details (dec : String → Option JVal)
    (qe : List (String × JVal)) :
    (enrichRecord dec qe).sources_details =
      sources_details_of (parse_resources dec (dictGet qe "resources" .null)) :=
  rfl

theorem enrichRecord_pct (dec : String → Option JVal)
    (qe : List (String × JVal)) :
    (enrichRecord dec qe).brand_mention_percentage =
      (if (parse_resources dec (dictGet qe "resources" .null)).length > 0 then
        ((sources_with_brand_of
            (parse_resources dec (dictGet qe "resources" .null)) : Rat) /
          ((parse_resources dec (dictGet qe "resources" .null)).length : Rat)) *
          100
      else 0) := rfl

theorem enrichRecord_product_in_results (dec : String → Option JVal)
    (qe : List (String × JVal)) :
    (enrichRecord dec qe).product_in_results =
      dictGet qe "product_in_results" (.num 0) := rfl

theorem enrichRecord_brand_in_response (dec : String → Option JVal)
    (qe : List (String × JVal)) :
    (enrichRecord dec qe).brand_in_response =
      (dictGet qe "product_in_results" (.num 0)).truthy := rfl

theorem pct_invariants (rs : List JVal) :
    sources_with_brand_of rs ≤ rs.length ∧
    0 ≤ (if rs.length > 0 then
          ((sources_with_brand_of rs : Rat) / (rs.length : Rat)) * 100
         else 0) ∧
    (if rs.length > 0 then
        ((sources_with_brand_of rs : Rat) / (rs.length : Rat)) * 100
     else 0) ≤ 100 := by
  refine ⟨sources_with_brand_of_le rs, ?_, ?_⟩
  · split
    · positivity
    · norm_num
  · split
    · rename_i hpos
      have hle : (sources_with_brand_of rs : Rat) ≤ (rs.length : Rat) :=
        Nat.cast_le.mpr (sources_with_brand_of_le rs)
      have hlpos : (0 : Rat) < (rs.length : Rat) := by
        exact_mod_cast hpos
      calc ((sources_with_brand_of rs : Rat) / (rs.length : Rat)) * 100
          ≤ 1 * 100 := by
            apply mul_le_mul_of_nonneg_right _ (by norm_num)
            exact (div_le_one hlpos).mpr hle
        _ = 100 := by norm_num
    · norm_num

/-! ## Claim theorems -/

/-- C1, counterexample: the claim says `total_sources` equals the length
of the normalized (non-mapping-skipping) citation sequence and never
exceeds the number of citation detail entries.  On the payload `[1]` the
code sets `total_sources = 1` (length of the raw parsed list) while the
detail list is empty, so `total_sources` exceeds the detail count. -/
theorem C1_counterexample :
    (enrichRecord (fun _ => none)
        [("resources", JVal.arr [JVal.num 1])]).total_sources = 1 ∧
    (enrichRecord (fun _ => none)
        [("resources", JVal.arr [JVal.num 1])]).sources_details.length = 0 ∧
    ¬((enrichRecord (fun _ => none)
        [("resources", JVal.arr [JVal.num 1])]).total_sources ≤
      (enrichRecord (fun _ => none)
        [("resources", JVal.arr [JVal.num 1])]).sources_details.length) := by
  refine ⟨rfl, rfl, ?_⟩
  decide

/-- C1, amended: for every raw record, `total_sources` equals the length
of the raw parsed citation sequence (non-mapping elements included), and
the number of citation detail entries is at most `total_sources` (it is
smaller exactly when non-mapping elements are present). -/
theorem C1_amended_total_sources (dec : String → Option JVal)
    (qe : List (String × JVal)) :
    (enrichRecord dec qe).total_sources =
      (parse_resources dec (dictGet qe "resources" JVal.null)).length ∧
    (enrichRecord dec qe).sources_details.length ≤
      (enrichRecord dec qe).total_sources := by
  refine ⟨rfl, ?_⟩
  rw [enrichRecord_sources_details, enrichRecord_total_sources]
  exact sources_details_of_length_le _

/-- C2: for every raw record, the enriched record satisfies
`0 ≤ sources_with_brand ≤ total_sources`,
`0 ≤ brand_mention_percentage ≤ 100`, the percentage is `0` when
`total_sources = 0`, and otherwise it equals
`sources_with_brand / total_sources * 100` (exact rational arithmetic
modelling the source's float division). -/
theorem C2_enriched_invariants (dec : String → Option JVal)
    (qe : List (String × JVal)) :
    (enrichRecord dec qe).sources_with_brand ≤
      (enrichRecord dec qe).total_sources ∧
    0 ≤ (enrichRecord dec qe).brand_mention_percentage ∧
    (enrichRecord dec qe).brand_mention_percentage ≤ 100 ∧
    ((enrichRecord dec qe).total_sources = 0 →
      (enrichRecord dec qe).brand_mention_percentage = 0) ∧
    ((enrichRecord dec qe).total_sources ≠ 0 →
      (enrichRecord dec qe).brand_mention_percentage =
        ((enrichRecord dec qe).sources_with_brand : Rat) /
          ((enrichRecord dec qe).total_sources : Rat) * 100) := by
  rw [enrichRecord_sources_with_brand, enrichRecord_total_sources,
    enrichRecord_pct]
  obtain ⟨h1, h2, h3⟩ :=
    pct_invariants (parse_resources dec (dictGet qe "resources" JVal.null))
  refine ⟨h1, h2, h3, ?_, ?_⟩
  · intro h0
    simp [h0]
  · intro hne
    have hpos : (parse_resources dec (dictGet qe "resources" JVal.null)).length > 0 :=
      Nat.pos_of_ne_zero hne
    simp [hpos]

/-- C2 witness: the invariants instantiated at a concrete record with two
parsed citations, one of which mentions the brand. -/
theorem C2_enriched_invariants_witness :
    (enrichRecord (fun _ => none)
        [("resources", JVal.arr
          [JVal.obj [("is_customer_mentioned", JVal.bool true)],
           JVal.obj []])]).sources_with_brand ≤
      (enrichRecord (fun _ => none)
        [("resources", JVal.arr
          [JVal.obj [("is_customer_mentioned", JVal.bool true)],
           JVal.obj []])]).total_sources ∧
    (enrichRecord (fun _ => none)
        [("resources", JVal.arr
          [JVal.obj [("is_customer_mentioned", JVal.bool true)],
           JVal.obj []])]).brand_mention_percentage =
      ((enrichRecord (fun _ => none)
        [("resources", JVal.arr
          [JVal.obj [("is_customer_mentioned", JVal.bool true)],
           JVal.obj []])]).sources_with_brand : Rat) /
        ((enrichRecord (fun _ => none)
          [("resources", JVal.arr
            [JVal.obj [("is_customer_mentioned", JVal.bool true)],
             JVal.obj []])]).total_sources : Rat) * 100 :=
  ⟨(C2_enriched_invariants (fun _ => none)
      [("resources", JVal.arr
        [JVal.obj [("is_customer_mentioned", JVal.bool true)],
         JVal.obj []])]).1,
   (C2_enriched_invariants (fun _ => none)
      [("resources", JVal.arr
        [JVal.obj [("is_customer_mentioned", JVal.bool true)],
         JVal.obj []])]).2.2.2.2 (by decide)⟩

/-- C3, counterexample: the claim says every element of the normalized
sequence is a record carrying the three canonical fields with correct
types.  `parse_resources` on the payload `[1]` returns `[1]`, whose
element is not a record at all; and even after the detail-extraction
step, the payload `{"resources":[{"url":42}]}` yields a detail entry
whose `url` is the number `42`, not a string. -/
theorem C3_counterexample :
    parse_resources (fun _ => none) (JVal.arr [JVal.num 1]) = [JVal.num 1] ∧
    (normalizeCitations (fun _ => none)
        (JVal.obj [("resources",
          JVal.arr [JVal.obj [("url", JVal.num 42)]])])).map
      SourceDetail.url = [JVal.num 42] ∧
    JVal.isStr (JVal.num 42) = false :=
  ⟨rfl, rfl, rfl⟩

/-- C3, amended: for every citation payload, normalization is total (the
model never raises); a string payload that fails to decode yields the
empty sequence; and every entry of the extracted detail sequence comes
from a mapping element of the parsed sequence, carrying the three
canonical fields — `is_brand_mentioned` coerced to a genuine boolean,
`url` and `domain` defaulting to the empty string when absent but
keeping the payload's raw (possibly non-string) value when present. -/
theorem C3_amended_normalizer_shape (dec : String → Option JVal) :
    (∀ s, dec s = none → parse_resources dec (.str s) = []) ∧
    (∀ payload d, d ∈ normalizeCitations dec payload →
      ∃ fields, JVal.obj fields ∈ parse_resources dec payload ∧
        d.url = dictGet fields "url" (.str "") ∧
        d.domain = dictGet fields "Domain" (.str "") ∧
        d.is_customer_mentioned =
          (dictGet fields "is_customer_mentioned" (.bool false)).truthy) := by
  constructor
  · intro s h
    simp [parse_resources, h]
  · intro payload d hd
    exact mem_sources_details_of hd

/-- C3 witness: the undecodable string payload `"not json"` normalizes to
the empty sequence. -/
theorem C3_amended_witness :
    parse_resources (fun _ => none) (JVal.str "not json") = [] :=
  (C3_amended_normalizer_shape (fun _ => none)).1 "not json" rfl

/-- C4, counterexample: the claim says every mapping without a
`resources` key — including the empty mapping — normalizes to a
single-element sequence giving `total_sources = 1`.  The empty mapping
is falsy in Python, so `parse_resources` returns the empty sequence and
`total_sources = 0`. -/
theorem C4_counterexample :
    parse_resources (fun _ => none) (JVal.obj []) = [] ∧
    (enrichRecord (fun _ => none)
        [("resources", JVal.obj [])]).total_sources = 0 ∧
    (enrichRecord (fun _ => none)
        [("resources", JVal.obj [])]).total_sources ≠ 1 := by
  refine ⟨rfl, rfl, ?_⟩
  decide

/-- C4, amended: every non-empty (truthy) mapping payload without a
`resources` key is treated as a single-element sequence, so enriching
such a record yields `total_sources = 1`; the empty mapping is falsy and
normalizes to the empty sequence instead. -/
theorem C4_amended_bare_mapping (dec : String → Option JVal)
    (fields : List (String × JVal)) (hne : fields ≠ [])
    (hres : jlookup fields "resources" = none) :
    parse_resources dec (.obj fields) = [.obj fields] ∧
    (enrichRecord dec [("resources", JVal.obj fields)]).total_sources = 1 ∧
    parse_resources dec (.obj []) = [] := by
  have htr : (JVal.obj fields).truthy = true := by
    cases fields with
    | nil => exact absurd rfl hne
    | cons a l => rfl
  have hp : parse_resources dec (.obj fields) = [.obj fields] := by
    simp [parse_resources, htr, hres]
  refine ⟨hp, ?_, rfl⟩
  rw [enrichRecord_total_sources]
  have hget : dictGet [("resources", JVal.obj fields)] "resources" JVal.null =
      JVal.obj fields := rfl
  rw [hget, hp]
  rfl

/-- C4 witness: the amended statement at the spec's own bare-mapping
example `{"Domain":"b.com","url":"http://b.com","is_customer_mentioned":false}`. -/
theorem C4_amended_witness :
    parse_resources (fun _ => none)
        (JVal.obj [("Domain", JVal.str "b.com"),
                   ("url", JVal.str "http://b.com"),
                   ("is_customer_mentioned", JVal.bool false)]) =
      [JVal.obj [("Domain", JVal.str "b.com"),
                 ("url", JVal.str "http://b.com"),
                 ("is_customer_mentioned", JVal.bool false)]] ∧
    (enrichRecord (fun _ => none)
        [("resources",
          JVal.obj [("Domain", JVal.str "b.com"),
                    ("url", JVal.str "http://b.com"),
                    ("is_customer_mentioned", JVal.bool false)])]).total_sources =
      1 ∧
    parse_resources (fun _ => none) (JVal.obj []) = [] :=
  C4_amended_bare_mapping (fun _ => none) _ (by simp) rfl

theorem keepRecord_consequences {dec : String → Option JVal}
    {r : List (String × JVal)} (h : keepRecord dec r = true) :
    1 ≤ (enrichRecord dec r).total_sources ∧
    dictGet r "resources" JVal.null ≠ JVal.null := by
  simp only [keepRecord, Bool.and_eq_true, decide_eq_true_eq] at h
  obtain ⟨ht, hlen⟩ := h
  constructor
  · rw [enrichRecord_total_sources]
    omega
  · intro hnull
    rw [hnull] at ht
    simp [JVal.truthy] at ht

/-- C5: the Dataset Filter inside `fetch_queries_execution_data` keeps a
record iff its `resources` field is truthy and `parse_resources` — the
same function the enrichment stage uses — yields a non-empty list;
consequently every record the fetch stage returns satisfies the keep
test, enriches to `total_sources ≥ 1`, and does not have a null (or
absent) `resources` field. -/
theorem C5_filter_consistency (dec : String → Option JVal)
    (apiKey : String) (outcome : HttpOutcome)
    (records : List (List (String × JVal)))
    (hfetch : fetch_queries_execution_data dec apiKey outcome = some records) :
    ∀ r ∈ records, keepRecord dec r = true ∧
      1 ≤ (enrichRecord dec r).total_sources ∧
      dictGet r "resources" JVal.null ≠ JVal.null := by
  intro r hr
  unfold fetch_queries_execution_data at hfetch
  split at hfetch
  · simp only [Option.some.injEq] at hfetch
    rw [← hfetch] at hr
    simp at hr
  · split at hfetch
    · split at hfetch
      · rcases Option.map_eq_some'.mp hfetch with ⟨objs, hobjs, hrec⟩
        rw [← hrec] at hr
        have hk := (List.mem_filter.mp hr).2
        exact ⟨hk, keepRecord_consequences hk⟩
      · exact absurd hfetch (by simp)
    · simp only [Option.some.injEq] at hfetch
      rw [← hfetch] at hr
      simp at hr

/-- C5 witness: a concrete fetch run keeping one record whose single
citation gives `total_sources = 1`. -/
theorem C5_filter_consistency_witness :
    keepRecord (fun _ => none)
        [("resources", JVal.arr [JVal.obj [("Domain", JVal.str "a.com")]])] =
      true ∧
    1 ≤ (enrichRecord (fun _ => none)
        [("resources",
          JVal.arr [JVal.obj [("Domain", JVal.str "a.com")]])]).total_sources ∧
    dictGet [("resources", JVal.arr [JVal.obj [("Domain", JVal.str "a.com")]])]
        "resources" JVal.null ≠ JVal.null :=
  C5_filter_consistency (fun _ => none) "key"
    (.success (.obj [("data", JVal.arr
      [JVal.obj [("resources",
        JVal.arr [JVal.obj [("Domain", JVal.str "a.com")]])]])]))
    [[("resources", JVal.arr [JVal.obj [("Domain", JVal.str "a.com")]])]]
    rfl
    [("resources", JVal.arr [JVal.obj [("Domain", JVal.str "a.com")]])]
    (List.Mem.head _)

/-- C6, counterexample: the claim says fetch-stage failures are
distinguishable typed failures, letting the orchestrator tell a
legitimately empty result set apart from an error.  In the code an HTTP
error, a transport error and a successful response whose `data` payload
is the empty list all produce the identical value (the empty record
list), and `api_call` returns the same `None` for distinct failure
kinds. -/
theorem C6_counterexample :
    fetch_queries_execution_data (fun _ => none) "key"
        (.success (.obj [("data", JVal.arr [])])) = some [] ∧
    fetch_queries_execution_data (fun _ => none) "key"
        (.httpError 500 "Internal Server Error") = some [] ∧
    fetch_queries_execution_data (fun _ => none) "key"
        (.otherError "timed out") = some [] ∧
    api_call "key" (.httpError 500 "Internal Server Error") =
      api_call "key" (.otherError "timed out") :=
  ⟨rfl, rfl, rfl, rfl⟩

/-- C6, amended: every fetch-stage failure (missing credential,
transport error, non-success status, undecodable body) is reported by a
console message and the same untyped `None` sentinel, which
`fetch_queries_execution_data` turns into the empty record list — the
same value a legitimately empty result set produces — so the
orchestrator aborts without artifacts in both situations but cannot
programmatically distinguish them. -/
theorem C6_amended_failure_collapse (dec : String → Option JVal)
    (apiKey : String) (outcome : HttpOutcome) (code : Nat)
    (reason msg : String) :
    api_call "" outcome = none ∧
    api_call apiKey (.httpError code reason) = none ∧
    api_call apiKey (.otherError msg) = none ∧
    api_call apiKey .successUndecodable = none ∧
    fetch_queries_execution_data dec "" outcome = some [] ∧
    fetch_queries_execution_data dec apiKey (.httpError code reason) =
      some [] ∧
    fetch_queries_execution_data dec apiKey (.otherError msg) = some [] ∧
    fetch_queries_execution_data dec apiKey .successUndecodable = some [] ∧
    fetch_queries_execution_data dec apiKey
        (.success (.obj [("data", JVal.arr [])])) = some [] ∧
    main_artifacts dec apiKey (.httpError code reason) = some [] ∧
    main_artifacts dec apiKey (.success (.obj [("data", JVal.arr [])])) =
      some [] := by
  have h1 : ∀ o, api_call "" o = none := by
    intro o
    simp [api_call]
  have h2 : api_call apiKey (.httpError code reason) = none := by
    unfold api_call
    split <;> rfl
  have h3 : api_call apiKey (.otherError msg) = none := by
    unfold api_call
    split <;> rfl
  have h4 : api_call apiKey .successUndecodable = none := by
    unfold api_call
    split <;> rfl
  have h9 : fetch_queries_execution_data dec apiKey
      (.success (.obj [("data", JVal.arr [])])) = some [] := by
    by_cases hk : apiKey = ""
    · simp [fetch_queries_execution_data, api_call, hk]
    · simp [fetch_queries_execution_data, api_call, hk, dictGet, jlookup,
        JVal.truthy]
  have h6 : fetch_queries_execution_data dec apiKey
      (.httpError code reason) = some [] := by
    simp [fetch_queries_execution_data, h2]
  refine ⟨h1 outcome, h2, h3, h4, ?_, h6, ?_, ?_, h9, ?_, ?_⟩
  · simp [fetch_queries_execution_data, h1]
  · simp [fetch_queries_execution_data, h3]
  · simp [fetch_queries_execution_data, h4]
  · simp [main_artifacts, h6]
  · simp [main_artifacts, h9]

theorem isEmpty_eq_of_length_eq {α β : Type} {a : List α} {b : List β}
    (h : a.length = b.length) : a.isEmpty = b.isEmpty := by
  cases a <;> cases b <;> simp_all

/-- C7: `generate_summary_stats` partitions the records by
`brand_in_response` into two disjoint groups; the reported group counts
are exactly the two partition sizes and sum to the total record count,
and every per-group mean over an empty group is `0`. -/
theorem C7_summary_partition (l : List EnrichedRecord) :
    (generate_summary_stats l).records_with_brand_in_response =
      (l.filter (fun r => r.brand_in_response)).length ∧
    (generate_summary_stats l).records_without_brand_in_response =
      (l.filter (fun r => !r.brand_in_response)).length ∧
    (generate_summary_stats l).records_with_brand_in_response +
        (generate_summary_stats l).records_without_brand_in_response =
      (generate_summary_stats l).total_records ∧
    (∀ r, ¬(r ∈ l.filter (fun r => r.brand_in_response) ∧
            r ∈ l.filter (fun r => !r.brand_in_response))) ∧
    (l.filter (fun r => r.brand_in_response) = [] →
      (generate_summary_stats l).avg_sources_when_mentioned = 0 ∧
      (generate_summary_stats l).avg_brand_sources_when_mentioned = 0 ∧
      (generate_summary_stats l).avg_brand_pct_when_mentioned = 0) ∧
    (l.filter (fun r => !r.brand_in_response) = [] →
      (generate_summary_stats l).avg_sources_when_not_mentioned = 0 ∧
      (generate_summary_stats l).avg_brand_sources_when_not_mentioned = 0 ∧
      (generate_summary_stats l).avg_brand_pct_when_not_mentioned = 0) := by
  have hcount : l.countP (fun r => r.brand_in_response) =
      (l.filter (fun r => r.brand_in_response)).length :=
    List.countP_eq_length_filter _ _
  have hsum := length_filter_add_length_filter_not
    (fun r => r.brand_in_response) l
  have hle : l.countP (fun r => r.brand_in_response) ≤ l.length :=
    List.countP_le_length _
  refine ⟨?_, ?_, ?_, ?_, ?_, ?_⟩
  · simpa [generate_summary_stats] using hcount
  · simp only [generate_summary_stats]
    omega
  · simp only [generate_summary_stats]
    omega
  · intro r ⟨h1, h2⟩
    have hb1 := (List.mem_filter.mp h1).2
    have hb2 := (List.mem_filter.mp h2).2
    simp [hb1] at hb2
  · intro hempty
    simp [generate_summary_stats, hempty]
  · intro hempty
    simp [generate_summary_stats, hempty]

/-- C7 witness: the partition facts instantiated at the empty record
list, where both groups are empty and all means are `0`. -/
theorem C7_summary_partition_witness :
    (generate_summary_stats ([] : List EnrichedRecord)).records_with_brand_in_response +
        (generate_summary_stats ([] : List EnrichedRecord)).records_without_brand_in_response =
      (generate_summary_stats ([] : List EnrichedRecord)).total_records ∧
    (generate_summary_stats ([] : List EnrichedRecord)).avg_sources_when_mentioned = 0 ∧
    (generate_summary_stats ([] : List EnrichedRecord)).avg_sources_when_not_mentioned = 0 :=
  ⟨(C7_summary_partition []).2.2.1,
   ((C7_summary_partition []).2.2.2.2.1 rfl).1,
   ((C7_summary_partition []).2.2.2.2.2 rfl).1⟩

/-- C8: `generate_summary_stats` is deterministic and order-independent:
permuting the input sequence of enriched records leaves every field of
the summary (group counts and the three per-group means) unchanged. -/
theorem C8_summary_perm_invariant (l1 l2 : List EnrichedRecord)
    (h : l1.Perm l2) :
    generate_summary_stats l1 = generate_summary_stats l2 := by
  have hlen := h.length_eq
  have hcount := h.countP_eq (fun r => r.brand_in_response)
  have hm : (l1.filter (fun r => r.brand_in_response)).Perm
      (l2.filter (fun r => r.brand_in_response)) :=
    h.filter (fun r => r.brand_in_response)
  have hn : (l1.filter (fun r => !r.brand_in_response)).Perm
      (l2.filter (fun r => !r.brand_in_response)) :=
    h.filter (fun r => !r.brand_in_response)
  have hmE := isEmpty_eq_of_length_eq hm.length_eq
  have hnE := isEmpty_eq_of_length_eq hn.length_eq
  simp only [generate_summary_stats, SummaryStats.mk.injEq]
  refine ⟨hlen, hcount, by rw [hlen, hcount], ?_, ?_, ?_, ?_, ?_, ?_⟩
  · rw [hmE, hm.length_eq,
      (hm.map (fun r => (r.total_sources : Rat))).sum_eq]
  · rw [hnE, hn.length_eq,
      (hn.map (fun r => (r.total_sources : Rat))).sum_eq]
  · rw [hmE, hm.length_eq,
      (hm.map (fun r => (r.sources_with_brand : Rat))).sum_eq]
  · rw [hnE, hn.length_eq,
      (hn.map (fun r => (r.sources_with_brand : Rat))).sum_eq]
  · rw [hmE, hm.length_eq,
      (hm.map (fun r => r.brand_mention_percentage)).sum_eq]
  · rw [hnE, hn.length_eq,
      (hn.map (fun r => r.brand_mention_percentage)).sum_eq]

/-- C8 witness: swapping two concrete enriched records leaves the
summary unchanged. -/
theorem C8_summary_perm_invariant_witness :
    generate_summary_stats
        [enrichRecord (fun _ => none) [("product_in_results", JVal.num 1)],
         enrichRecord (fun _ => none) []] =
      generate_summary_stats
        [enrichRecord (fun _ => none) [],
         enrichRecord (fun _ => none) [("product_in_results", JVal.num 1)]] :=
  C8_summary_perm_invariant _ _
    (List.Perm.swap (enrichRecord (fun _ => none) [])
      (enrichRecord (fun _ => none) [("product_in_results", JVal.num 1)]) [])

/-- C9: along the modelled control path of `main`, a failed fetch (or a
fetch with no usable records) produces no output artifacts, and any
other run produces exactly the full set of three artifacts written by
`save_results`; no run writes a proper non-empty subset of them. -/
theorem C9_artifact_all_or_nothing (dec : String → Option JVal)
    (apiKey : String) (outcome : HttpOutcome) :
    (api_call apiKey outcome = none →
      main_artifacts dec apiKey outcome = some []) ∧
    (fetch_queries_execution_data dec apiKey outcome = some [] →
      main_artifacts dec apiKey outcome = some []) ∧
    (∀ records, fetch_queries_execution_data dec apiKey outcome =
        some records → records ≠ [] →
      main_artifacts dec apiKey outcome = some save_results_artifacts) ∧
    (∀ arts, main_artifacts dec apiKey outcome = some arts →
      arts = [] ∨ arts = save_results_artifacts) := by
  refine ⟨?_, ?_, ?_, ?_⟩
  · intro h
    simp [main_artifacts, fetch_queries_execution_data, h]
  · intro h
    simp [main_artifacts, h]
  · intro records h hne
    simp [main_artifacts, h, hne]
  · intro arts h
    unfold main_artifacts at h
    split at h
    · exact absurd h (by simp)
    · split at h
      · left
        exact (Option.some.inj h).symm
      · right
        exact (Option.some.inj h).symm

/-- C9 witness: a run whose fetch fails (missing credential) writes no
artifacts. -/
theorem C9_artifact_all_or_nothing_witness :
    main_artifacts (fun _ => none) "" (.otherError "boom") = some [] :=
  (C9_artifact_all_or_nothing (fun _ => none) "" (.otherError "boom")).1 rfl

/-- C10: when the raw record has no `product_in_results` field,
enrichment defaults it to `0`, derives `brand_in_response = false`, and
the enriched record therefore always lands in the not-mentioned
partition used by `generate_summary_stats`. -/
theorem C10_missing_flag_defaults (dec : String → Option JVal)
    (qe : List (String × JVal))
    (h : jlookup qe "product_in_results" = none) :
    (enrichRecord dec qe).product_in_results = JVal.num 0 ∧
    (enrichRecord dec qe).brand_in_response = false ∧
    ∀ l : List EnrichedRecord, enrichRecord dec qe ∈ l →
      enrichRecord dec qe ∈ l.filter (fun r => !r.brand_in_response) := by
  have hp : (enrichRecord dec qe).product_in_results = JVal.num 0 := by
    rw [enrichRecord_product_in_results]
    simp [dictGet, h]
  have hb : (enrichRecord dec qe).brand_in_response = false := by
    rw [enrichRecord_brand_in_response]
    simp [dictGet, h, JVal.truthy]
  refine ⟨hp, hb, ?_⟩
  intro l hl
  exact List.mem_filter.mpr ⟨hl, by simp [hb]⟩

/-- C10 witness: a concrete record lacking `product_in_results` enriches
to `brand_in_response = false` and is a member of the not-mentioned
group of a list containing it. -/
theorem C10_missing_flag_defaults_witness :
    (enrichRecord (fun _ => none) [("id", JVal.num 7)]).brand_in_response =
      false ∧
    enrichRecord (fun _ => none) [("id", JVal.num 7)] ∈
      ([enrichRecord (fun _ => none) [("id", JVal.num 7)]].filter
        (fun r => !r.brand_in_response)) :=
  ⟨(C10_missing_flag_defaults (fun _ => none) [("id", JVal.num 7)] rfl).2.1,
   (C10_missing_flag_defaults (fun _ => none) [("id", JVal.num 7)] rfl).2.2
     [enrichRecord (fun _ => none) [("id", JVal.num 7)]] (List.Mem.head _)⟩

end SMA
